import Mathlib

/-!
Verification of the classroom project-portal application (`src/app.py`):
the project-upload ingestion pipeline, the visibility/access-control
resolver, file serving, sharing, challenge submission and the supporting
helpers, shallowly embedded in Lean.  Timestamps are modelled as integer
seconds; database tables are modelled as Lean lists of records; the
randomness of `random.choices` is modelled by passing the chosen
characters as an explicit argument.
-/

/-! ## Data model (the SQLAlchemy models of `app.py`) -/

/-- A `User` row: `id` and `role` (one of `student`, `teacher`, `staff`,
`parent`, `admin`) are the fields the embedded logic reads. -/
structure User where
  id : Nat
  role : String
deriving DecidableEq

/-- A `Project` row, restricted to the fields the embedded routes read or
write: owner, classroom, visibility, tagged teacher and the two counters. -/
structure Project where
  id : Nat
  title : String
  student_id : Nat
  classroom_id : Nat
  visibility : String
  tagged_teacher_id : Option Nat
  likes : Nat
  views : Nat
deriving DecidableEq

/-- A `Classroom` row: the access logic only reads its owning teacher. -/
structure Classroom where
  id : Nat
  teacher_id : Nat
deriving DecidableEq

/-- A `ClassroomStudent` enrollment row with its cumulative points counter. -/
structure ClassroomStudent where
  classroom_id : Nat
  student_id : Nat
  points : Nat
deriving DecidableEq

/-- A `ParentNotification` row linking a parent account to a project. -/
structure ParentNotification where
  project_id : Nat
  parent_id : Nat
  teacher_id : Nat
  student_id : Nat
  share_code : Option String
  viewed : Bool
deriving DecidableEq

/-- A `ProjectShare` row: a teacher-issued share code for one project,
with the (never consulted) optional expiry timestamp in seconds. -/
structure ProjectShare where
  project_id : Nat
  teacher_id : Nat
  share_type : String
  share_code : String
  expires_at : Option Int
deriving DecidableEq

/-- A `Challenge` row: point value and owning classroom. -/
structure Challenge where
  id : Nat
  points : Nat
  classroom_id : Nat
deriving DecidableEq

/-- A `ChallengeSubmission` row. -/
structure ChallengeSubmission where
  challenge_id : Nat
  student_id : Nat
  project_id : Nat
  points_awarded : Nat
deriving DecidableEq

/-! ## Access resolver (`check_project_access`, app.py lines 769-809) -/

/-- Embedding of `check_project_access(project)`.  The Flask globals are
explicit arguments: `viewer` is `current_user`, `classroom` is
`project.classroom`, and the two lists model the `ParentNotification` and
`ClassroomStudent` tables queried inside the function. -/
def check_project_access (viewer : User) (project : Project) (classroom : Classroom)
    (notifications : List ParentNotification) (enrollments : List ClassroomStudent) : Bool :=
  if viewer.role = "admin" then true
  else if project.student_id = viewer.id then true
  else if project.visibility = "public" then true
  else if project.visibility = "private" then false
  else if project.visibility = "classroom" then
    if viewer.role = "teacher" ∨ viewer.role = "staff" ∨ viewer.role = "admin" then
      if viewer.role = "admin" then true
      else decide (classroom.teacher_id = viewer.id)
    else if viewer.role = "parent" then
      notifications.any (fun n => n.project_id == project.id && n.parent_id == viewer.id)
    else
      enrollments.any (fun e => e.classroom_id == project.classroom_id && e.student_id == viewer.id)
  else if project.visibility = "parents" then
    if viewer.role = "teacher" ∨ viewer.role = "staff" ∨ viewer.role = "admin" then
      if viewer.role = "admin" then true
      else decide (classroom.teacher_id = viewer.id ∨ project.tagged_teacher_id = some viewer.id)
    else if viewer.role = "parent" then
      notifications.any (fun n => n.project_id == project.id && n.parent_id == viewer.id)
    else false
  else false

/-! ## Late-submission formatting (`calculate_late_time`, app.py lines 754-767) -/

/-- Embedding of `calculate_late_time(deadline, submitted_at)`.  Times are
integer seconds; `delta.total_seconds() / 3600` followed by `int(...)`
truncation is exactly natural-number division on the positive delta, and
`int(hours % 24)` equals `(delta / 3600) % 24`. -/
def calculate_late_time (deadline submitted_at : Int) : Option String :=
  if submitted_at ≤ deadline then none
  else
    let delta : Nat := (submitted_at - deadline).toNat
    let days := delta / 86400
    let hoursInt := delta / 3600
    let h24 := hoursInt % 24
    if days > 0 then
      some (toString days ++ " day" ++ (if days > 1 then "s" else "") ++ " "
        ++ toString h24 ++ " hour" ++ (if h24 = 1 then "" else "s") ++ " late")
    else if hoursInt ≥ 1 then
      some (toString hoursInt ++ " hour" ++ (if hoursInt > 1 then "s" else "") ++ " late")
    else
      let minutes := delta / 60
      some (toString minutes ++ " minute" ++ (if minutes > 1 then "s" else "") ++ " late")

/-- Modelled from the spec's words, for comparison with the source's
`calculate_late_time`: no lateness when not after the deadline; at least
24h late reports whole days plus remaining whole hours; at least 1h late
reports whole hours; otherwise whole minutes; every unit word is singular
exactly when its value equals 1 and plural otherwise. -/
def spec_late_time (deadline submitted_at : Int) : Option String :=
  if submitted_at ≤ deadline then none
  else
    let delta : Nat := (submitted_at - deadline).toNat
    if delta ≥ 86400 then
      let days := delta / 86400
      let remHours := (delta % 86400) / 3600
      some (toString days ++ " day" ++ (if days = 1 then "" else "s") ++ " "
        ++ toString remHours ++ " hour" ++ (if remHours = 1 then "" else "s") ++ " late")
    else if delta ≥ 3600 then
      let hrs := delta / 3600
      some (toString hrs ++ " hour" ++ (if hrs = 1 then "" else "s") ++ " late")
    else
      let m := delta / 60
      some (toString m ++ " minute" ++ (if m = 1 then "" else "s") ++ " late")

/-- The amended spec formatter: identical to `spec_late_time` except that
the minutes component is plural exactly when its value exceeds 1, so a
sub-minute lateness reads `0 minute late` with a singular unit. -/
def spec_late_time_amended (deadline submitted_at : Int) : Option String :=
  if submitted_at ≤ deadline then none
  else
    let delta : Nat := (submitted_at - deadline).toNat
    if delta ≥ 86400 then
      let days := delta / 86400
      let remHours := (delta % 86400) / 3600
      some (toString days ++ " day" ++ (if days = 1 then "" else "s") ++ " "
        ++ toString remHours ++ " hour" ++ (if remHours = 1 then "" else "s") ++ " late")
    else if delta ≥ 3600 then
      let hrs := delta / 3600
      some (toString hrs ++ " hour" ++ (if hrs = 1 then "" else "s") ++ " late")
    else
      let m := delta / 60
      some (toString m ++ " minute" ++ (if m > 1 then "s" else "") ++ " late")

/-! ## Character-list string helpers

The Python string primitives are embedded over character lists so that
every definition evaluates by kernel reduction. -/

/-- Python `str.split(sep)` for a one-character separator: splits at every
occurrence and keeps empty pieces. -/
def charSplit (sep : Char) : List Char → List (List Char)
  | [] => [[]]
  | c :: rest =>
    match charSplit sep rest with
    | w :: ws => if c = sep then [] :: w :: ws else (c :: w) :: ws
    | [] => [[c]]

/-- String wrapper around `charSplit`. -/
def strSplitOn (sep : Char) (s : String) : List String :=
  (charSplit sep s.toList).map String.mk

/-- Whether the first list is an initial segment of the second. -/
def isLeadingOf : List Char → List Char → Bool
  | [], _ => true
  | _ :: _, [] => false
  | x :: xs, y :: ys => x == y && isLeadingOf xs ys

/-- Python `str.startswith`. -/
def strStartsWith (s pat : String) : Bool :=
  isLeadingOf pat.toList s.toList

/-- Python `str.endswith`. -/
def strEndsWith (s pat : String) : Bool :=
  isLeadingOf pat.toList.reverse s.toList.reverse

/-- Python `str.lower` on ASCII text. -/
def strToLower (s : String) : String :=
  String.mk (s.toList.map Char.toLower)

/-! ## Path normalization and the directory-traversal guard
(`project_file` app.py lines 691-718, `view_code` lines 720-743) -/

/-- The component loop of POSIX `os.path.normpath`: drop empty and `.`
components, cancel a `..` against a preceding real component, and keep a
leading run of `..` components on a relative path. -/
def normpathComps (initialSlashes : Nat) (comps : List String) : List String :=
  comps.foldl (fun acc comp =>
    if comp = "" ∨ comp = "." then acc
    else if comp ≠ ".." ∨ (initialSlashes = 0 ∧ acc = []) ∨ (acc ≠ [] ∧ acc.getLast? = some "..") then
      acc ++ [comp]
    else if acc ≠ [] then acc.dropLast
    else acc) []

/-- Embedding of POSIX `os.path.normpath`. -/
def normpath (path : String) : String :=
  if path = "" then "."
  else
    let initialSlashes : Nat :=
      if strStartsWith path "/" then
        (if strStartsWith path "//" ∧ ¬ strStartsWith path "///" then 2 else 1)
      else 0
    let joined := String.intercalate "/" (normpathComps initialSlashes (strSplitOn '/' path))
    let result := String.mk (List.replicate initialSlashes '/') ++ joined
    if result = "" then "." else result

/-- Embedding of `str.lstrip('/')`. -/
def lstripSlashes (s : String) : String :=
  String.mk (s.toList.dropWhile (fun c => c == '/'))

/-- Embedding of Python's substring test `'..' in s`. -/
def containsDotDot (s : String) : Bool :=
  decide (List.IsInfix ['.', '.'] s.toList)

/-- Componentwise common prefix of two split paths. -/
def commonPrefixComps : List String → List String → List String
  | x :: xs, y :: ys => if x = y then x :: commonPrefixComps xs ys else []
  | _, _ => []

/-- Embedding of `os.path.commonpath` for two relative POSIX paths. -/
def commonpath2 (a b : String) : String :=
  let sa := (strSplitOn '/' a).filter (fun c => c != "" && c != ".")
  let sb := (strSplitOn '/' b).filter (fun c => c != "" && c != ".")
  String.intercalate "/" (commonPrefixComps sa sb)

/-- Outcome of a file fetch: HTTP 403, HTTP 404, or the served file. -/
inductive FetchResult where
  | forbidden
  | notFound
  | served (relPath : String)
deriving DecidableEq

/-- Embedding of the `project_file` route body.  `access` is the value of
`check_project_access(project)`, `projectDir` is `project.project_dir`,
and `dirFiles` lists the relative paths of the files that exist inside
the project's directory on disk. -/
def project_file (access : Bool) (projectDir : Option String) (dirFiles : List String)
    (filePath : String) : FetchResult :=
  if ¬ access then .forbidden
  else
    match projectDir with
    | none => .notFound
    | some dirName =>
      let projectDirPath := "static/uploads/" ++ dirName
      let safePath := lstripSlashes (normpath filePath)
      if containsDotDot safePath || strStartsWith safePath "/" then .forbidden
      else if ¬ dirFiles.contains safePath then .notFound
      else if commonpath2 projectDirPath (projectDirPath ++ "/" ++ safePath) ≠ projectDirPath then
        .forbidden
      else .served safePath

/-- Outcome of the code viewer: HTTP 403, HTTP 404, or the displayed file. -/
inductive CodeResult where
  | forbidden
  | notFound
  | shown (relPath : String)
deriving DecidableEq

/-- Embedding of the `view_code` route body: identical checks to
`project_file`, rendering the file's text instead of serving it. -/
def view_code (access : Bool) (projectDir : Option String) (dirFiles : List String)
    (filePath : String) : CodeResult :=
  if ¬ access then .forbidden
  else
    match projectDir with
    | none => .notFound
    | some dirName =>
      let projectDirPath := "static/uploads/" ++ dirName
      let safePath := lstripSlashes (normpath filePath)
      if containsDotDot safePath || strStartsWith safePath "/" then .forbidden
      else if ¬ dirFiles.contains safePath then .notFound
      else if commonpath2 projectDirPath (projectDirPath ++ "/" ++ safePath) ≠ projectDirPath then
        .forbidden
      else .shown safePath

/-! ## Upload ingestion pipeline
(`upload_project` app.py lines 474-668, `extract_zip_project` lines 182-201,
helper predicates lines 176-180 and 251-252) -/

/-- The allowed web-asset extension set `ALLOWED_EXTENSIONS`. -/
def ALLOWED_EXTENSIONS : List String :=
  ["html", "zip", "css", "js", "png", "jpg", "jpeg", "gif", "svg", "json", "txt", "ico"]

/-- Embedding of `allowed_file`: the lowercased text after the last dot
must be an allowed web-asset extension. -/
def allowed_file (filename : String) : Bool :=
  filename.toList.contains '.' &&
    ALLOWED_EXTENSIONS.contains (strToLower ((strSplitOn '.' filename).getLastD ""))

/-- Embedding of `allowed_zip_file`. -/
def allowed_zip_file (filename : String) : Bool :=
  filename.toList.contains '.' &&
    ["zip"].contains (strToLower ((strSplitOn '.' filename).getLastD ""))

/-- Embedding of `werkzeug.utils.secure_filename` on ASCII input: path
separators become spaces, space-separated words are joined with
underscores, characters outside `[A-Za-z0-9_.-]` are dropped, and leading
and trailing dots and underscores are stripped. -/
def secureFilename (filename : String) : String :=
  let replaced := String.mk (filename.toList.map (fun c => if c = '/' then ' ' else c))
  let words := (strSplitOn ' ' replaced).filter (fun w => w != "")
  let joined := String.intercalate "_" words
  let kept := joined.toList.filter (fun c => c.isAlphanum || c == '_' || c == '.' || c == '-')
  let l1 := kept.dropWhile (fun c => c == '.' || c == '_')
  String.mk ((l1.reverse.dropWhile (fun c => c == '.' || c == '_')).reverse)

/-- A directory tree on disk: the files of a directory, in listing order,
and its named subdirectories.  Models the extracted contents of a zip
archive. -/
inductive FsTree where
  | node (files : List String) (subdirs : List (String × FsTree))

mutual

/-- The relative file paths produced by a top-down `os.walk` from a
directory, in visiting order: the directory's own files first, then each
subdirectory depth-first. -/
def walkFiles (pre : String) : FsTree → List String
  | .node files subdirs => files.map (fun f => pre ++ f) ++ walkDirs pre subdirs

/-- Walk of a list of subdirectories, in listing order. -/
def walkDirs (pre : String) : List (String × FsTree) → List String
  | [] => []
  | (d, t) :: rest => walkFiles (pre ++ d ++ "/") t ++ walkDirs pre rest

end

/-- The `.html` files found by walking an extracted archive, by relative
path in walk order: the `html_files` list of `extract_zip_project`. -/
def html_walk (archive : FsTree) : List String :=
  (walkFiles "" archive).filter (fun f => strEndsWith f ".html")

/-- Embedding of `extract_zip_project`'s main-file selection over the
extracted tree: prefer the relative paths `index.html`, `main.html`,
`home.html` in that order, else the first `.html` file in walk order,
and `none` when the tree holds no `.html` file. -/
def extract_zip_project (archive : FsTree) : Option String :=
  let html_files := html_walk archive
  if html_files.contains "index.html" then some "index.html"
  else if html_files.contains "main.html" then some "main.html"
  else if html_files.contains "home.html" then some "home.html"
  else html_files.head?

/-- Outcome of an upload: rejection (flash + redirect, nothing persisted)
or acceptance with the selected main entry point. -/
inductive UploadResult where
  | rejected
  | accepted (main_file : String)
deriving DecidableEq

/-- Embedding of the `upload_type == 'zip'` branch of `upload_project`.
The second component is the final contents of the per-upload directory:
`none` when no directory remains on disk.  The directory receives the
saved archive, then the extracted entries, then `os.remove` deletes the
archive; on a tree with no HTML file the whole directory is removed by
`shutil.rmtree` and nothing is persisted. -/
def zip_upload (zipFilename : String) (archive : FsTree) : UploadResult × Option (List String) :=
  if zipFilename == "" then (.rejected, none)
  else if allowed_zip_file zipFilename then
    let zf := secureFilename zipFilename
    let dirContents := ([zf] ++ walkFiles "" archive).erase zf
    match extract_zip_project archive with
    | some m => (.accepted m, some dirContents)
    | none => (.rejected, none)
  else (.rejected, none)

/-- The filenames persisted by the `upload_type == 'multiple'` branch:
each named file with an allowed extension, stored under its sanitized
name. -/
def stored_files (files : List String) : List String :=
  (files.filter (fun f => f != "" && allowed_file f)).map secureFilename

/-- The stored filenames ending in `.html`, in submission order: the
`html_files` list of the multiple-file branch. -/
def html_stored (files : List String) : List String :=
  (stored_files files).filter (fun f => strEndsWith f ".html")

/-- Embedding of the `upload_type == 'multiple'` branch of
`upload_project`.  The second component is the final contents of the
per-upload directory (`none` when no directory remains on disk). -/
def multiple_upload (files : List String) : UploadResult × Option (List String) :=
  if files.isEmpty || files.all (fun f => f == "") then (.rejected, none)
  else
    let html_files := html_stored files
    if html_files.isEmpty then (.rejected, none)
    else
      let mainF := if html_files.contains "index.html" then "index.html" else html_files.headD ""
      (.accepted mainF, some (stored_files files))

/-! ## Share codes and the share-link endpoint
(`generate_share_code` app.py lines 254-257,
`share_project_with_parents` lines 1200-1237,
`view_shared_project` lines 1248-1264) -/

/-- The alphabet of `generate_share_code`:
`string.ascii_uppercase + string.digits`. -/
def share_alphabet : List Char :=
  "ABCDEFGHIJKLMNOPQRSTUVWXYZ0123456789".toList

/-- Embedding of `generate_share_code`: `random.choices(alphabet, k=8)` is
modelled by passing the eight randomly chosen characters explicitly. -/
def generate_share_code (picks : List Char) : String :=
  String.mk picks

/-- The filter of `ProjectShare.query.filter_by(project_id=..., teacher_id=...)`. -/
def pair_match (pid tid : Nat) (s : ProjectShare) : Bool :=
  s.project_id == pid && s.teacher_id == tid

/-- Mutation of the first `(project, teacher)`-matching share row: the
`existing_share.share_code = share_code` update branch. -/
def update_first_share : List ProjectShare → Nat → Nat → String → String → List ProjectShare
  | [], _, _, _, _ => []
  | s :: rest, pid, tid, stype, code =>
    if pair_match pid tid s then { s with share_type := stype, share_code := code } :: rest
    else s :: update_first_share rest pid tid stype code

/-- Embedding of the POST branch of `share_project_with_parents`.
`classroomTeacherId` is `project.classroom.teacher_id`,
`studentParentEmail` is `project.student.parent_email` (`none` for a
missing or empty address), and `picks` are the random characters drawn by
`generate_share_code`.  Returns the updated `ProjectShare` table, or
`none` when the request is refused and nothing changes. -/
def share_project_with_parents (teacher : User) (project : Project) (classroomTeacherId : Nat)
    (studentParentEmail : Option String) (stype : String) (picks : List Char)
    (shares : List ProjectShare) : Option (List ProjectShare) :=
  if ¬ (classroomTeacherId = teacher.id ∨ teacher.role = "admin") then none
  else if project.visibility ≠ "public" ∧ stype = "parents" ∧ studentParentEmail = none then none
  else
    let share_code := generate_share_code picks
    if shares.any (pair_match project.id teacher.id) then
      some (update_first_share shares project.id teacher.id stype share_code)
    else
      some (shares ++ [⟨project.id, teacher.id, stype, share_code, none⟩])

/-- The lookup `ProjectShare.query.filter_by(share_code=...).first()`. -/
def lookup_share (shares : List ProjectShare) (code : String) : Option ProjectShare :=
  shares.find? (fun s => s.share_code == code)

/-- Outcome of the `/share/<share_code>` endpoint. -/
inductive SharedViewResult where
  | notFound
  | rendered (project_id : Nat) (share_code : String)
deriving DecidableEq

/-- The notification side effect of `view_shared_project`: the first row
matching `(project_id, parent_id, share_code)` is marked viewed if it was
unread. -/
def mark_viewed_first : List ParentNotification → Nat → Nat → String → List ParentNotification
  | [], _, _, _ => []
  | n :: rest, pid, par, code =>
    if n.project_id == pid && n.parent_id == par && n.share_code == some code then
      (if n.viewed then n :: rest else { n with viewed := true } :: rest)
    else n :: mark_viewed_first rest pid par code

/-- Embedding of `view_shared_project(share_code)`.  The route carries no
`login_required`, so the viewer is optional; `_now` is the request time
and `_projects` the project table, passed to exhibit that the handler
consults neither (no expiry comparison, no access-resolver call): it
renders the share's project for whoever presents the code. -/
def view_shared_project (viewer : Option User) (_now : Int) (shares : List ProjectShare)
    (_projects : List Project) (notifications : List ParentNotification) (code : String) :
    SharedViewResult × List ParentNotification :=
  match lookup_share shares code with
  | none => (.notFound, notifications)
  | some share =>
    let notifications' :=
      match viewer with
      | some v =>
        if v.role = "parent" then mark_viewed_first notifications share.project_id v.id code
        else notifications
      | none => notifications
    (.rendered share.project_id code, notifications')

/-! ## Challenge submission (`submit_challenge`, app.py lines 851-895) -/

/-- Outcome of `submit_challenge`. -/
inductive SubmitResult where
  | notStudent
  | invalidProject
  | alreadySubmitted
  | accepted (points : Nat)
deriving DecidableEq

/-- The mutable state `submit_challenge` touches: the
`ChallengeSubmission` table and the enrollment rows with their points. -/
structure SubmitState where
  submissions : List ChallengeSubmission
  enrollments : List ClassroomStudent
deriving DecidableEq

/-- The `enrollment.points += challenge.points` step: the first enrollment
row matching `(classroom_id, student_id)` receives the points; with no
matching row nothing changes. -/
def award_points : List ClassroomStudent → Nat → Nat → Nat → List ClassroomStudent
  | [], _, _, _ => []
  | e :: rest, cid, sid, pts =>
    if e.classroom_id == cid && e.student_id == sid then
      { e with points := e.points + pts } :: rest
    else e :: award_points rest cid sid pts

/-- Embedding of the `submit_challenge` route body. -/
def submit_challenge (viewer : User) (challenge : Challenge) (projects : List Project)
    (project_id : Nat) (st : SubmitState) : SubmitResult × SubmitState :=
  if viewer.role ≠ "student" then (.notStudent, st)
  else
    match projects.find? (fun p => p.id == project_id) with
    | none => (.invalidProject, st)
    | some project =>
      if project.student_id ≠ viewer.id ∨ project.classroom_id ≠ challenge.classroom_id then
        (.invalidProject, st)
      else if st.submissions.any
          (fun s => s.challenge_id == challenge.id && s.student_id == viewer.id) then
        (.alreadySubmitted, st)
      else
        (.accepted challenge.points,
          ⟨st.submissions ++ [⟨challenge.id, viewer.id, project_id, challenge.points⟩],
           award_points st.enrollments challenge.classroom_id viewer.id challenge.points⟩)

/-! ## Like counter (`like_project`, app.py lines 811-817) -/

/-- Embedding of the `like_project` route body: look the project up by
primary key (`none` models the 404) and increment its likes counter.  The
body never reads `viewer`; the argument records only that some
authenticated user made the request. -/
def like_project (_viewer : User) (projects : List Project) (project_id : Nat) :
    Option (List Project) :=
  if projects.any (fun p => p.id == project_id) then
    some (projects.map (fun p => if p.id == project_id then { p with likes := p.likes + 1 } else p))
  else none

/-! ## Shared auxiliary lemmas -/

/-- Boolean list membership agrees with propositional membership. -/
theorem contains_iff_mem (l : List String) (a : String) : l.contains a = true ↔ a ∈ l := by
  simp [List.elem_iff, List.contains]

/-! ## Claim C1: private projects are visible only to the owner and admins -/

/-- C1: for every project with visibility `private` and every
authenticated viewer, `check_project_access` returns true if and only if
the viewer is the project's owning student or holds the admin role; every
other role/identity combination — the classroom's own teacher, a parent
holding a notification for the project, classmates enrolled in the
classroom — is denied. -/
theorem c1_private_access_iff (viewer : User) (project : Project) (classroom : Classroom)
    (notifications : List ParentNotification) (enrollments : List ClassroomStudent)
    (hvis : project.visibility = "private") :
    (check_project_access viewer project classroom notifications enrollments = true
      ↔ (viewer.role = "admin" ∨ project.student_id = viewer.id)) := by
  unfold check_project_access
  rw [hvis]
  by_cases hadm : viewer.role = "admin" <;> by_cases hown : project.student_id = viewer.id <;>
    simp [hadm, hown]

/-- Witness for C1: a teacher who owns the private project's classroom is
denied. -/
theorem c1_private_access_iff_witness :
    (Project.visibility ⟨10, "t", 1, 5, "private", none, 0, 0⟩ = "private") ∧
    (check_project_access ⟨2, "teacher"⟩ ⟨10, "t", 1, 5, "private", none, 0, 0⟩ ⟨5, 2⟩ [] [] = true
      ↔ (("teacher" : String) = "admin" ∨ (1 : Nat) = 2)) :=
  ⟨rfl, c1_private_access_iff ⟨2, "teacher"⟩ ⟨10, "t", 1, 5, "private", none, 0, 0⟩ ⟨5, 2⟩ [] [] rfl⟩

/-! ## Claim C3: the share link bypasses authentication, access control and expiry -/

/-- C3: whenever a `ProjectShare` row carries the requested code,
`view_shared_project` renders that share's project — for an arbitrary
viewer including the unauthenticated one, at an arbitrary request time,
for an arbitrary project table (hence arbitrary visibility, `private`
included), and for an arbitrary `expires_at` on the share, which is never
compared against the clock. -/
theorem c3_share_link_unconditional (viewer : Option User) (now : Int)
    (shares : List ProjectShare) (projects : List Project)
    (notifications : List ParentNotification) (code : String) (share : ProjectShare)
    (hfind : lookup_share shares code = some share) :
    (view_shared_project viewer now shares projects notifications code).1
      = SharedViewResult.rendered share.project_id code := by
  unfold view_shared_project
  rw [hfind]

/-- Witness for C3: an anonymous request after the share's expiry time
still renders a private project. -/
theorem c3_share_link_unconditional_witness :
    lookup_share [⟨10, 2, "parents", "ABCDEF12", some 5⟩] "ABCDEF12"
      = some ⟨10, 2, "parents", "ABCDEF12", some 5⟩ ∧
    (view_shared_project none 100 [⟨10, 2, "parents", "ABCDEF12", some 5⟩]
        [⟨10, "t", 1, 5, "private", none, 0, 0⟩] [] "ABCDEF12").1
      = SharedViewResult.rendered 10 "ABCDEF12" :=
  ⟨by decide,
   c3_share_link_unconditional none 100 [⟨10, 2, "parents", "ABCDEF12", some 5⟩]
     [⟨10, "t", 1, 5, "private", none, 0, 0⟩] [] "ABCDEF12"
     ⟨10, 2, "parents", "ABCDEF12", some 5⟩ (by decide)⟩

/-! ## Claim C6: late-time formatting -/

/-- C6 counterexample: a submission 30 seconds after the deadline is
formatted by the code as `0 minute late` — a singular unit word at the
value 0 — where the claim's pluralization rule (singular exactly at 1)
demands `0 minutes late`. -/
theorem c6_plural_counterexample :
    calculate_late_time 0 30 = some "0 minute late" ∧
    spec_late_time 0 30 = some "0 minutes late" ∧
    calculate_late_time 0 30 ≠ spec_late_time 0 30 := by
  refine ⟨by decide, by decide, ?_⟩
  decide

/-- The truncated hour-of-day component `int(hours % 24)` computed by the
code equals the remaining-whole-hours component of the specification. -/
theorem late_h24_eq (d : Nat) : d / 3600 % 24 = d % 86400 / 3600 := by
  conv_lhs => rw [← Nat.div_add_mod d 86400]
  have h1 : (86400 * (d / 86400) + d % 86400) / 3600
      = 24 * (d / 86400) + d % 86400 / 3600 := by
    rw [show (86400 : Nat) * (d / 86400) = 3600 * (24 * (d / 86400)) by ring]
    rw [Nat.mul_add_div (by norm_num)]
  rw [h1, Nat.mul_add_mod]
  have h2 : d % 86400 < 86400 := Nat.mod_lt d (by norm_num)
  exact Nat.mod_eq_of_lt ((Nat.div_lt_iff_lt_mul (by norm_num)).mpr (by omega))

/-- C6 (amended): `calculate_late_time` behaves exactly as the claim
states — none when not after the deadline, days plus remaining hours when
at least 24 hours, whole hours when at least 1 hour, whole minutes
otherwise, with singular units exactly at the value 1 in the day and hour
components — except that the minutes component is plural exactly when its
value exceeds 1, so a lateness under one minute reports the singular
`0 minute late`. -/
theorem c6_late_time_amended_eq (deadline submitted_at : Int) :
    calculate_late_time deadline submitted_at = spec_late_time_amended deadline submitted_at := by
  simp only [calculate_late_time, spec_late_time_amended]
  by_cases hle : submitted_at ≤ deadline
  · simp [hle]
  · rw [if_neg hle, if_neg hle]
    set d := (submitted_at - deadline).toNat with hd
    have hdays : (0 < d / 86400) ↔ (86400 ≤ d) := Nat.one_le_div_iff (by norm_num)
    have hhrs : (1 ≤ d / 3600) ↔ (3600 ≤ d) := Nat.one_le_div_iff (by norm_num)
    by_cases hge : 86400 ≤ d
    · have h1 : d / 86400 > 0 := hdays.mpr hge
      rw [if_pos h1, if_pos hge, late_h24_eq d]
      by_cases he : d / 86400 = 1
      · rw [he]; simp
      · have h2 : d / 86400 > 1 := lt_of_le_of_ne h1 (Ne.symm he)
        rw [if_pos h2, if_neg he]
    · rw [if_neg (fun h => hge (hdays.mp h)), if_neg hge]
      by_cases hh : 3600 ≤ d
      · have h3 : d / 3600 ≥ 1 := hhrs.mpr hh
        rw [if_pos h3, if_pos hh]
        by_cases he : d / 3600 = 1
        · rw [he]; simp
        · have h4 : d / 3600 > 1 := lt_of_le_of_ne h3 (Ne.symm he)
          rw [if_pos h4, if_neg he]
      · rw [if_neg (fun h => hh (hhrs.mp h)), if_neg hh]

/-! ## Claim C2: the directory-traversal guard -/

/-- C2 (amended): the fetch endpoints normalize the requested path first
and deny with a forbidden result exactly the requests whose normalized
form still contains a parent-directory marker; a `..` segment that
cancels inside the path survives normalization and the corresponding
in-directory file is served, an absolute-path prefix is stripped rather
than denied, and any file that is served is one of the project
directory's own files, itself free of parent-directory markers. -/
theorem c2_traversal_guard (access : Bool) (dirName : String) (dirFiles : List String)
    (filePath : String) :
    (containsDotDot (lstripSlashes (normpath filePath)) = true →
        project_file access (some dirName) dirFiles filePath = FetchResult.forbidden ∧
        view_code access (some dirName) dirFiles filePath = CodeResult.forbidden) ∧
    (∀ p, project_file access (some dirName) dirFiles filePath = FetchResult.served p →
        dirFiles.contains p = true ∧ containsDotDot p = false) ∧
    (∀ p, view_code access (some dirName) dirFiles filePath = CodeResult.shown p →
        dirFiles.contains p = true ∧ containsDotDot p = false) := by
  refine ⟨?_, ?_, ?_⟩
  · intro h
    constructor
    · unfold project_file
      cases access with
      | false => simp
      | true => simp [h]
    · unfold view_code
      cases access with
      | false => simp
      | true => simp [h]
  · intro p hp
    unfold project_file at hp
    cases access with
    | false => simp at hp
    | true =>
      by_cases hdd : containsDotDot (lstripSlashes (normpath filePath)) = true
      · simp [hdd] at hp
      · by_cases hsw : strStartsWith (lstripSlashes (normpath filePath)) "/" = true
        · simp [hdd, hsw] at hp
        · by_cases hmem : lstripSlashes (normpath filePath) ∈ dirFiles
          · by_cases hcp : commonpath2 ("static/uploads/" ++ dirName)
                ("static/uploads/" ++ dirName ++ "/" ++ lstripSlashes (normpath filePath))
                = "static/uploads/" ++ dirName
            · simp [hdd, hsw, hmem, hcp] at hp
              subst hp
              exact ⟨(contains_iff_mem _ _).mpr hmem, by simpa using hdd⟩
            · simp [hdd, hsw, hmem, hcp] at hp
          · simp [hdd, hsw, hmem] at hp
  · intro p hp
    unfold view_code at hp
    cases access with
    | false => simp at hp
    | true =>
      by_cases hdd : containsDotDot (lstripSlashes (normpath filePath)) = true
      · simp [hdd] at hp
      · by_cases hsw : strStartsWith (lstripSlashes (normpath filePath)) "/" = true
        · simp [hdd, hsw] at hp
        · by_cases hmem : lstripSlashes (normpath filePath) ∈ dirFiles
          · by_cases hcp : commonpath2 ("static/uploads/" ++ dirName)
                ("static/uploads/" ++ dirName ++ "/" ++ lstripSlashes (normpath filePath))
                = "static/uploads/" ++ dirName
            · simp [hdd, hsw, hmem, hcp] at hp
              subst hp
              exact ⟨(contains_iff_mem _ _).mpr hmem, by simpa using hdd⟩
            · simp [hdd, hsw, hmem, hcp] at hp
          · simp [hdd, hsw, hmem] at hp

/-- Witness for C2 (amended): `../../etc/passwd` survives normalization
with its parent-directory markers intact and both endpoints refuse it. -/
theorem c2_traversal_guard_witness :
    containsDotDot (lstripSlashes (normpath "../../etc/passwd")) = true ∧
    project_file true (some "project_1_5") ["index.html"] "../../etc/passwd"
      = FetchResult.forbidden :=
  ⟨by decide,
   ((c2_traversal_guard true "project_1_5" ["index.html"] "../../etc/passwd").1 (by decide)).1⟩

/-- C2 counterexample: the request path `docs/../index.html` contains a
parent-directory segment, and `/etc/passwd` carries an absolute-path
prefix, yet neither fetch is forbidden even for an arbitrary authorized
viewer — normalization cancels the `..` and the file is served, and the
leading slash is stripped so the in-directory file `etc/passwd` is
served — contradicting the claim that such requests are always denied
with a forbidden result and never serve file content. -/
theorem c2_traversal_claim_counterexample :
    (strSplitOn '/' "docs/../index.html").contains ".." = true ∧
    project_file true (some "project_1_5") ["index.html"] "docs/../index.html"
      = FetchResult.served "index.html" ∧
    view_code true (some "project_1_5") ["index.html"] "docs/../index.html"
      = CodeResult.shown "index.html" ∧
    strStartsWith "/etc/passwd" "/" = true ∧
    project_file true (some "project_1_5") ["etc/passwd"] "/etc/passwd"
      = FetchResult.served "etc/passwd" := by
  refine ⟨by decide, by decide, by decide, by decide, by decide⟩

/-! ## Claim C4: a zip upload with no HTML file fails and leaves no directory -/

/-- C4: for every zip upload whose archive has the `zip` extension but
contains no file ending in `.html` anywhere in its tree, the upload is
rejected — no project record is persisted — and no per-upload directory
remains on disk: the freshly created directory with the saved archive and
all extracted contents is removed before returning. -/
theorem c4_zip_no_html_rejected (zipFilename : String) (archive : FsTree)
    (hzip : allowed_zip_file zipFilename = true)
    (hnohtml : ∀ f ∈ walkFiles "" archive, strEndsWith f ".html" = false) :
    zip_upload zipFilename archive = (UploadResult.rejected, none) := by
  have hempty : html_walk archive = [] := by
    unfold html_walk
    exact List.filter_eq_nil_iff.mpr (fun f hf => by simp [hnohtml f hf])
  have hextract : extract_zip_project archive = none := by
    unfold extract_zip_project
    simp [hempty]
  have hne : (zipFilename == "") = false := by
    rcases h : zipFilename == "" with _ | _
    · rfl
    · rw [eq_of_beq h] at hzip
      simp [allowed_zip_file] at hzip
  unfold zip_upload
  simp [hne, hzip, hextract]

/-- Witness for C4: a `site.zip` archive holding only a stylesheet is
rejected and the directory is gone. -/
theorem c4_zip_no_html_rejected_witness :
    allowed_zip_file "site.zip" = true ∧
    (∀ f ∈ walkFiles "" (FsTree.node ["style.css"] [("img", FsTree.node ["logo.png"] [])]),
        strEndsWith f ".html" = false) ∧
    zip_upload "site.zip" (FsTree.node ["style.css"] [("img", FsTree.node ["logo.png"] [])])
      = (UploadResult.rejected, none) :=
  ⟨by decide, by decide,
   c4_zip_no_html_rejected "site.zip" (FsTree.node ["style.css"] [("img", FsTree.node ["logo.png"] [])])
     (by decide) (by decide)⟩

/-! ## Claim C9: zip main-file preference order -/

/-- C9: on an extracted archive containing at least one `.html` file, the
main entry point is chosen by the preference order `index.html`,
`main.html`, `home.html`, else the first `.html` file of the depth-first
walk; candidates are drawn from the whole extracted tree by relative
path, and whatever is selected is an `.html` file of the tree. -/
theorem c9_zip_main_preference (archive : FsTree) :
    ("index.html" ∈ html_walk archive →
        extract_zip_project archive = some "index.html") ∧
    ("index.html" ∉ html_walk archive → "main.html" ∈ html_walk archive →
        extract_zip_project archive = some "main.html") ∧
    ("index.html" ∉ html_walk archive → "main.html" ∉ html_walk archive →
        "home.html" ∈ html_walk archive → extract_zip_project archive = some "home.html") ∧
    ("index.html" ∉ html_walk archive → "main.html" ∉ html_walk archive →
        "home.html" ∉ html_walk archive →
        extract_zip_project archive = (html_walk archive).head?) ∧
    (∀ m, extract_zip_project archive = some m →
        m ∈ walkFiles "" archive ∧ strEndsWith m ".html" = true) := by
  unfold extract_zip_project
  refine ⟨fun h1 => ?_, fun h1 h2 => ?_, fun h1 h2 h3 => ?_, fun h1 h2 h3 => ?_, fun m hm => ?_⟩
  · simp [h1]
  · simp [h1, h2]
  · simp [h1, h2, h3]
  · simp [h1, h2, h3]
  · have hmem : m ∈ html_walk archive := by
      by_cases c1 : "index.html" ∈ html_walk archive
      · simp [c1] at hm
        subst hm
        exact c1
      · by_cases c2 : "main.html" ∈ html_walk archive
        · simp [c1, c2] at hm
          subst hm
          exact c2
        · by_cases c3 : "home.html" ∈ html_walk archive
          · simp [c1, c2, c3] at hm
            subst hm
            exact c3
          · simp [c1, c2, c3] at hm
            rcases hl : html_walk archive with _ | ⟨a, as⟩
            · rw [hl] at hm
              simp at hm
            · rw [hl] at hm
              simp at hm
              subst hm
              exact List.mem_cons_self a as
    unfold html_walk at hmem
    have := List.mem_filter.mp hmem
    exact ⟨this.1, this.2⟩

/-- Witness for C9: a tree whose only top-level HTML file is `main.html`
while `index.html` sits in a subdirectory — the relative path
`sub/index.html` does not match the preferred name, so `main.html` wins. -/
theorem c9_zip_main_preference_witness :
    ("index.html" ∉ html_walk (FsTree.node ["main.html"] [("sub", FsTree.node ["index.html"] [])])) ∧
    ("main.html" ∈ html_walk (FsTree.node ["main.html"] [("sub", FsTree.node ["index.html"] [])])) ∧
    extract_zip_project (FsTree.node ["main.html"] [("sub", FsTree.node ["index.html"] [])])
      = some "main.html" :=
  ⟨by decide, by decide,
   (c9_zip_main_preference (FsTree.node ["main.html"] [("sub", FsTree.node ["index.html"] [])])).2.1
     (by decide) (by decide)⟩

/-! ## Claim C8: multiple-file upload main selection -/

/-- C8: in a multiple-file upload, a stored file literally named
`index.html` is always selected as main regardless of its position in
the submitted list; with no `index.html` the first stored HTML file in
list order is selected; and with zero stored `.html` files the upload is
rejected and no per-upload directory remains. -/
theorem c8_multiple_main_selection (files : List String) :
    ("index.html" ∈ html_stored files →
        (multiple_upload files).1 = UploadResult.accepted "index.html") ∧
    ("index.html" ∉ html_stored files → html_stored files ≠ [] →
        (multiple_upload files).1 = UploadResult.accepted ((html_stored files).headD "")) ∧
    (html_stored files = [] → multiple_upload files = (UploadResult.rejected, none)) := by
  have hearly : (files.isEmpty || files.all (fun f => f == "")) = true →
      html_stored files = [] := by
    intro h
    unfold html_stored stored_files
    rcases (Bool.or_eq_true _ _).mp h with h | h
    · rw [List.isEmpty_iff.mp h]
      rfl
    · have hall := List.all_eq_true.mp h
      have hfil : files.filter (fun f => f != "" && allowed_file f) = [] :=
        List.filter_eq_nil_iff.mpr (fun f hf => by
          have hf0 := hall f hf
          simp only [beq_iff_eq] at hf0
          simp [hf0])
      rw [hfil]
      rfl
  by_cases he : (files.isEmpty || files.all (fun f => f == "")) = true
  · have hnil := hearly he
    exact ⟨fun h1 => absurd h1 (by simp [hnil]), fun h1 h2 => absurd hnil h2,
      fun _ => by simp [multiple_upload, he]⟩
  · by_cases hh : html_stored files = []
    · refine ⟨fun h1 => absurd h1 (by simp [hh]), fun h1 h2 => absurd hh h2, fun _ => ?_⟩
      simp [multiple_upload, he, hh]
    · refine ⟨fun h1 => ?_, fun h1 h2 => ?_, fun h3 => absurd h3 hh⟩
      · simp [multiple_upload, he, hh, h1]
      · simp [multiple_upload, he, hh, h1]

/-- Witness for C8: `index.html` submitted last still becomes the main
file of the upload. -/
theorem c8_multiple_main_selection_witness :
    ("index.html" ∈ html_stored ["banner.png", "page.html", "index.html"]) ∧
    (multiple_upload ["banner.png", "page.html", "index.html"]).1
      = UploadResult.accepted "index.html" :=
  ⟨by decide,
   (c8_multiple_main_selection ["banner.png", "page.html", "index.html"]).1 (by decide)⟩

/-! ## Claim C10: liking performs no access check and touches only the likes counter -/

/-- C10: for any authenticated viewer of any role and any project — a
private project owned by someone else included — `like_project` performs
no visibility or access check: it succeeds, increments exactly the
target project's likes counter by 1, leaves every other field of that
project and every other project record unchanged, and its outcome is
independent of who the viewer is. -/
theorem c10_like_no_access_check (viewer : User) (projects : List Project) (project_id : Nat)
    (hex : ∃ p ∈ projects, p.id = project_id) :
    ∃ projects', like_project viewer projects project_id = some projects' ∧
      projects'.length = projects.length ∧
      (∀ i, (h : i < projects.length) → (h' : i < projects'.length) →
        ((projects.get ⟨i, h⟩).id ≠ project_id → projects'.get ⟨i, h'⟩ = projects.get ⟨i, h⟩) ∧
        ((projects.get ⟨i, h⟩).id = project_id →
          (projects'.get ⟨i, h'⟩).likes = (projects.get ⟨i, h⟩).likes + 1 ∧
          (projects'.get ⟨i, h'⟩).id = (projects.get ⟨i, h⟩).id ∧
          (projects'.get ⟨i, h'⟩).title = (projects.get ⟨i, h⟩).title ∧
          (projects'.get ⟨i, h'⟩).student_id = (projects.get ⟨i, h⟩).student_id ∧
          (projects'.get ⟨i, h'⟩).classroom_id = (projects.get ⟨i, h⟩).classroom_id ∧
          (projects'.get ⟨i, h'⟩).visibility = (projects.get ⟨i, h⟩).visibility ∧
          (projects'.get ⟨i, h'⟩).tagged_teacher_id = (projects.get ⟨i, h⟩).tagged_teacher_id ∧
          (projects'.get ⟨i, h'⟩).views = (projects.get ⟨i, h⟩).views)) ∧
      (∀ w : User, like_project w projects project_id = like_project viewer projects project_id) := by
  have hany : projects.any (fun p => p.id == project_id) = true := by
    rcases hex with ⟨p, hp, hid⟩
    exact List.any_eq_true.mpr ⟨p, hp, by simp [hid]⟩
  refine ⟨projects.map (fun p => if p.id == project_id then { p with likes := p.likes + 1 } else p),
    ?_, by simp, ?_, fun w => rfl⟩
  · unfold like_project
    rw [if_pos hany]
  · intro i h h'
    simp only [List.get_eq_getElem, List.getElem_map]
    constructor
    · intro hne
      simp [hne]
    · intro heq
      simp [heq]

/-- Witness for C10: a student who is neither owner nor classmate likes a
private project owned by someone else. -/
theorem c10_like_no_access_check_witness :
    (∃ p ∈ [(⟨10, "t", 1, 3, "private", none, 4, 7⟩ : Project)], p.id = 10) ∧
    (∃ projects', like_project ⟨99, "student"⟩ [⟨10, "t", 1, 3, "private", none, 4, 7⟩] 10
        = some projects' ∧
      projects'.length = [(⟨10, "t", 1, 3, "private", none, 4, 7⟩ : Project)].length ∧
      (∀ i, (h : i < [(⟨10, "t", 1, 3, "private", none, 4, 7⟩ : Project)].length) →
        (h' : i < projects'.length) →
        ((([(⟨10, "t", 1, 3, "private", none, 4, 7⟩ : Project)]).get ⟨i, h⟩).id ≠ 10 →
          projects'.get ⟨i, h'⟩ = ([(⟨10, "t", 1, 3, "private", none, 4, 7⟩ : Project)]).get ⟨i, h⟩) ∧
        ((([(⟨10, "t", 1, 3, "private", none, 4, 7⟩ : Project)]).get ⟨i, h⟩).id = 10 →
          (projects'.get ⟨i, h'⟩).likes
              = (([(⟨10, "t", 1, 3, "private", none, 4, 7⟩ : Project)]).get ⟨i, h⟩).likes + 1 ∧
          (projects'.get ⟨i, h'⟩).id
              = (([(⟨10, "t", 1, 3, "private", none, 4, 7⟩ : Project)]).get ⟨i, h⟩).id ∧
          (projects'.get ⟨i, h'⟩).title
              = (([(⟨10, "t", 1, 3, "private", none, 4, 7⟩ : Project)]).get ⟨i, h⟩).title ∧
          (projects'.get ⟨i, h'⟩).student_id
              = (([(⟨10, "t", 1, 3, "private", none, 4, 7⟩ : Project)]).get ⟨i, h⟩).student_id ∧
          (projects'.get ⟨i, h'⟩).classroom_id
              = (([(⟨10, "t", 1, 3, "private", none, 4, 7⟩ : Project)]).get ⟨i, h⟩).classroom_id ∧
          (projects'.get ⟨i, h'⟩).visibility
              = (([(⟨10, "t", 1, 3, "private", none, 4, 7⟩ : Project)]).get ⟨i, h⟩).visibility ∧
          (projects'.get ⟨i, h'⟩).tagged_teacher_id
              = (([(⟨10, "t", 1, 3, "private", none, 4, 7⟩ : Project)]).get ⟨i, h⟩).tagged_teacher_id ∧
          (projects'.get ⟨i, h'⟩).views
              = (([(⟨10, "t", 1, 3, "private", none, 4, 7⟩ : Project)]).get ⟨i, h⟩).views)) ∧
      (∀ w : User, like_project w [⟨10, "t", 1, 3, "private", none, 4, 7⟩] 10
          = like_project ⟨99, "student"⟩ [⟨10, "t", 1, 3, "private", none, 4, 7⟩] 10)) :=
  ⟨by decide,
   c10_like_no_access_check ⟨99, "student"⟩ [⟨10, "t", 1, 3, "private", none, 4, 7⟩] 10 (by decide)⟩

/-! ## Claim C7: at most one challenge submission per (challenge, student) -/

/-- Number of submission rows for one (challenge, student) pair. -/
def submission_count (subs : List ChallengeSubmission) (cid sid : Nat) : Nat :=
  (subs.filter (fun s => s.challenge_id == cid && s.student_id == sid)).length

/-- Total points held by a (classroom, student) pair across its
enrollment rows. -/
def enrollment_points (l : List ClassroomStudent) (cid sid : Nat) : Nat :=
  ((l.filter (fun e => e.classroom_id == cid && e.student_id == sid)).map
    (fun e => e.points)).sum

/-- Unfolding one enrollment row of the pair total. -/
theorem enrollment_points_cons (e : ClassroomStudent) (t : List ClassroomStudent) (cid sid : Nat) :
    enrollment_points (e :: t) cid sid
      = (if e.classroom_id == cid && e.student_id == sid then e.points else 0)
        + enrollment_points t cid sid := by
  unfold enrollment_points
  by_cases hp : (e.classroom_id == cid && e.student_id == sid) = true
  · simp [List.filter_cons, hp]
  · simp [List.filter_cons, hp]

/-- Awarding adds the points to the pair's total exactly when an
enrollment row for the pair exists. -/
theorem award_points_total (l : List ClassroomStudent) (cid sid pts : Nat) :
    enrollment_points (award_points l cid sid pts) cid sid
      = enrollment_points l cid sid
        + (if l.any (fun e => e.classroom_id == cid && e.student_id == sid) then pts else 0) := by
  induction l with
  | nil => simp [award_points, enrollment_points]
  | cons e rest ih =>
    unfold award_points
    by_cases hm : (e.classroom_id == cid && e.student_id == sid) = true
    · rw [if_pos hm, enrollment_points_cons, enrollment_points_cons]
      simp only [List.any_cons, hm, Bool.true_or, if_pos]
      omega
    · rw [if_neg hm, enrollment_points_cons, enrollment_points_cons, ih]
      have hm' : (e.classroom_id == cid && e.student_id == sid) = false := by
        rcases hb : (e.classroom_id == cid && e.student_id == sid) with _ | _
        · rfl
        · exact absurd hb hm
      simp [List.any_cons, hm']

/-- Awarding to one pair leaves every other pair's total unchanged. -/
theorem award_points_other (l : List ClassroomStudent) (cid sid pts cid' sid' : Nat)
    (hne : ¬ (cid' = cid ∧ sid' = sid)) :
    enrollment_points (award_points l cid sid pts) cid' sid'
      = enrollment_points l cid' sid' := by
  induction l with
  | nil => simp [award_points]
  | cons e rest ih =>
    unfold award_points
    by_cases hm : (e.classroom_id == cid && e.student_id == sid) = true
    · rw [if_pos hm, enrollment_points_cons, enrollment_points_cons]
      have hnot : (e.classroom_id == cid' && e.student_id == sid') = false := by
        rcases hb : (e.classroom_id == cid' && e.student_id == sid') with _ | _
        · rfl
        · obtain ⟨a1, a2⟩ : e.classroom_id = cid ∧ e.student_id = sid := by simpa using hm
          obtain ⟨b1, b2⟩ : e.classroom_id = cid' ∧ e.student_id = sid' := by simpa using hb
          exact absurd ⟨by omega, by omega⟩ hne
      simp [hnot]
    · rw [if_neg hm, enrollment_points_cons, enrollment_points_cons, ih]

/-- C7: a student's second submission for the same challenge is rejected
with the whole state — submission table and enrollment points —
unchanged; the first submission appends exactly one record and raises the
student's enrollment total by exactly the challenge's point value (when
an enrollment row exists) while every other pair's total is untouched;
and the at-most-one-submission-per-(challenge, student) invariant is
preserved. -/
theorem c7_challenge_single_submission (viewer : User) (challenge : Challenge)
    (projects : List Project) (project_id : Nat) (st : SubmitState) (project : Project)
    (hrole : viewer.role = "student")
    (hfind : projects.find? (fun p => p.id == project_id) = some project)
    (hown : project.student_id = viewer.id)
    (hcls : project.classroom_id = challenge.classroom_id) :
    ((∃ s ∈ st.submissions, s.challenge_id = challenge.id ∧ s.student_id = viewer.id) →
        submit_challenge viewer challenge projects project_id st
          = (SubmitResult.alreadySubmitted, st)) ∧
    ((¬ ∃ s ∈ st.submissions, s.challenge_id = challenge.id ∧ s.student_id = viewer.id) →
        (submit_challenge viewer challenge projects project_id st).1
            = SubmitResult.accepted challenge.points ∧
        (submit_challenge viewer challenge projects project_id st).2.submissions
            = st.submissions ++ [⟨challenge.id, viewer.id, project_id, challenge.points⟩] ∧
        enrollment_points (submit_challenge viewer challenge projects project_id st).2.enrollments
            challenge.classroom_id viewer.id
          = enrollment_points st.enrollments challenge.classroom_id viewer.id
            + (if st.enrollments.any
                  (fun e => e.classroom_id == challenge.classroom_id && e.student_id == viewer.id)
                then challenge.points else 0) ∧
        (∀ cid sid, ¬ (cid = challenge.classroom_id ∧ sid = viewer.id) →
          enrollment_points (submit_challenge viewer challenge projects project_id st).2.enrollments
              cid sid
            = enrollment_points st.enrollments cid sid)) ∧
    ((∀ cid sid, submission_count st.submissions cid sid ≤ 1) →
        ∀ cid sid,
          submission_count (submit_challenge viewer challenge projects project_id st).2.submissions
              cid sid ≤ 1) := by
  have key : submit_challenge viewer challenge projects project_id st
      = if st.submissions.any
            (fun s => s.challenge_id == challenge.id && s.student_id == viewer.id)
        then (SubmitResult.alreadySubmitted, st)
        else (SubmitResult.accepted challenge.points,
          ⟨st.submissions ++ [⟨challenge.id, viewer.id, project_id, challenge.points⟩],
           award_points st.enrollments challenge.classroom_id viewer.id challenge.points⟩) := by
    have h1 : (viewer.role ≠ "student") = False := eq_false (by simp [hrole])
    have h2 : (project.student_id ≠ viewer.id ∨ project.classroom_id ≠ challenge.classroom_id)
        = False := eq_false (by simp [hown, hcls])
    unfold submit_challenge
    rw [hfind]
    simp only [h1, h2, if_false]
  have hiff : (st.submissions.any
        (fun s => s.challenge_id == challenge.id && s.student_id == viewer.id)) = true
      ↔ (∃ s ∈ st.submissions, s.challenge_id = challenge.id ∧ s.student_id = viewer.id) := by
    simp [List.any_eq_true]
  by_cases hdup : ∃ s ∈ st.submissions, s.challenge_id = challenge.id ∧ s.student_id = viewer.id
  · rw [key, if_pos (hiff.mpr hdup)]
    exact ⟨fun _ => rfl, fun hn => absurd hdup hn, fun hinv cid sid => hinv cid sid⟩
  · rw [key, if_neg (fun h => hdup (hiff.mp h))]
    refine ⟨fun hd => absurd hd hdup,
      fun _ => ⟨rfl, rfl,
        award_points_total st.enrollments challenge.classroom_id viewer.id challenge.points,
        fun cid sid hne =>
          award_points_other st.enrollments challenge.classroom_id viewer.id challenge.points
            cid sid hne⟩,
      ?_⟩
    intro hinv cid sid
    unfold submission_count at hinv ⊢
    rw [List.filter_append, List.length_append]
    have h1 := hinv cid sid
    by_cases hpair : challenge.id = cid ∧ viewer.id = sid
    · have hzero :
          (st.submissions.filter (fun s => s.challenge_id == cid && s.student_id == sid)).length
            = 0 := by
        rw [List.length_eq_zero]
        apply List.filter_eq_nil_iff.mpr
        intro s hs hc
        obtain ⟨p1, p2⟩ : s.challenge_id = cid ∧ s.student_id = sid := by simpa using hc
        obtain ⟨e1, e2⟩ := hpair
        exact hdup ⟨s, hs, by omega, by omega⟩
      have hone :
          (([(⟨challenge.id, viewer.id, project_id, challenge.points⟩ : ChallengeSubmission)].filter
              (fun s => s.challenge_id == cid && s.student_id == sid)).length ≤ 1) := by
        rcases hp : ((⟨challenge.id, viewer.id, project_id, challenge.points⟩ :
              ChallengeSubmission).challenge_id == cid
            && (⟨challenge.id, viewer.id, project_id, challenge.points⟩ :
              ChallengeSubmission).student_id == sid) with _ | _ <;>
          simp [List.filter_cons, hp]
      omega
    · have hc : ((⟨challenge.id, viewer.id, project_id, challenge.points⟩ :
            ChallengeSubmission).challenge_id == cid
          && (⟨challenge.id, viewer.id, project_id, challenge.points⟩ :
            ChallengeSubmission).student_id == sid) = false := by
        rcases hb : ((⟨challenge.id, viewer.id, project_id, challenge.points⟩ :
              ChallengeSubmission).challenge_id == cid
            && (⟨challenge.id, viewer.id, project_id, challenge.points⟩ :
              ChallengeSubmission).student_id == sid) with _ | _
        · rfl
        · exact absurd (by simpa using hb) hpair
      have hnil :
          ([(⟨challenge.id, viewer.id, project_id, challenge.points⟩ : ChallengeSubmission)].filter
              (fun s => s.challenge_id == cid && s.student_id == sid)) = [] := by
        simp [List.filter_cons, hc]
      rw [hnil]
      simpa using h1

/-- Witness for C7: a second submission of challenge 7 by student 1 is
rejected and leaves submissions and points untouched. -/
theorem c7_challenge_single_submission_witness :
    (([(⟨20, "t", 1, 3, "classroom", none, 0, 0⟩ : Project)]).find? (fun p => p.id == 20)
      = some ⟨20, "t", 1, 3, "classroom", none, 0, 0⟩) ∧
    (∃ s ∈ ([(⟨7, 1, 20, 10⟩ : ChallengeSubmission)]), s.challenge_id = 7 ∧ s.student_id = 1) ∧
    submit_challenge ⟨1, "student"⟩ ⟨7, 10, 3⟩ [⟨20, "t", 1, 3, "classroom", none, 0, 0⟩] 20
        ⟨[⟨7, 1, 20, 10⟩], [⟨3, 1, 5⟩]⟩
      = (SubmitResult.alreadySubmitted, ⟨[⟨7, 1, 20, 10⟩], [⟨3, 1, 5⟩]⟩) :=
  ⟨by decide, by decide,
   (c7_challenge_single_submission ⟨1, "student"⟩ ⟨7, 10, 3⟩
       [⟨20, "t", 1, 3, "classroom", none, 0, 0⟩] 20 ⟨[⟨7, 1, 20, 10⟩], [⟨3, 1, 5⟩]⟩
       ⟨20, "t", 1, 3, "classroom", none, 0, 0⟩ rfl (by decide) rfl rfl).1 (by decide)⟩

/-! ## Claim C5: share-code regeneration -/

/-- The update branch of the share upsert rewrites exactly the first
`(project, teacher)`-matching row, leaving everything around it intact. -/
theorem update_first_share_decomp (l : List ProjectShare) (pid tid : Nat) (stype code : String)
    (h : l.any (pair_match pid tid) = true) :
    ∃ l1 t l2, l = l1 ++ t :: l2 ∧ (∀ x ∈ l1, pair_match pid tid x = false) ∧
      pair_match pid tid t = true ∧
      update_first_share l pid tid stype code
        = l1 ++ { t with share_type := stype, share_code := code } :: l2 := by
  induction l with
  | nil => simp at h
  | cons s rest ih =>
    by_cases hs : pair_match pid tid s = true
    · exact ⟨[], s, rest, rfl, by simp, hs, by simp [update_first_share, hs]⟩
    · have hs' : pair_match pid tid s = false := by
        rcases hb : pair_match pid tid s with _ | _
        · rfl
        · exact absurd hb hs
      have hrest : rest.any (pair_match pid tid) = true := by
        simp only [List.any_cons, hs', Bool.false_or] at h
        exact h
      obtain ⟨l1, t, l2, heq, hl1, ht, hupd⟩ := ih hrest
      refine ⟨s :: l1, t, l2, by rw [heq]; rfl, ?_, ht, ?_⟩
      · intro x hx
        rcases List.mem_cons.mp hx with hx | hx
        · subst hx; exact hs'
        · exact hl1 x hx
      · rw [show update_first_share (s :: rest) pid tid stype code
            = s :: update_first_share rest pid tid stype code from by
              simp [update_first_share, hs'], hupd]
        rfl

/-- Searching past a block of non-matching rows finds the first matching
row behind it. -/
theorem find?_append_cons (l1 : List ProjectShare) (x : ProjectShare) (l2 : List ProjectShare)
    (p : ProjectShare → Bool) (h1 : ∀ y ∈ l1, p y = false) (hx : p x = true) :
    (l1 ++ x :: l2).find? p = some x := by
  induction l1 with
  | nil => simp [List.find?_cons, hx]
  | cons a as ih =>
    have ha := h1 a (List.mem_cons_self a as)
    rw [List.cons_append, List.find?_cons_of_neg _ (by simp [ha])]
    exact ih (fun y hy => h1 y (List.mem_cons_of_mem a hy))

/-- C5: regenerating a share code for a (project, teacher) pair that
already holds a share overwrites that record in place — the number of
share rows for the pair is unchanged, so at most one share per pair
persists — after which a lookup by the old code fails and a lookup by
the newly issued code succeeds and returns the pair's share; the issued
code has exactly 8 characters, all uppercase letters or digits.  The
hypotheses are the database invariants: the pair had exactly one row
(`hpair` with `hmem`), share codes are column-unique (`hcode`, `hnodup`),
and the freshly drawn code collides with no stored code (`hfresh`,
`hnew`). -/
theorem c5_share_regeneration (teacher : User) (project : Project) (classroomTeacherId : Nat)
    (parentEmail : Option String) (stype : String) (picks : List Char)
    (shares : List ProjectShare) (old : ProjectShare)
    (hperm : classroomTeacherId = teacher.id ∨ teacher.role = "admin")
    (hemail : ¬ (project.visibility ≠ "public" ∧ stype = "parents" ∧ parentEmail = none))
    (hmem : old ∈ shares)
    (hopid : old.project_id = project.id)
    (hotid : old.teacher_id = teacher.id)
    (hpair : ∀ s ∈ shares, pair_match project.id teacher.id s = true → s = old)
    (hcode : ∀ s ∈ shares, s ≠ old → s.share_code ≠ old.share_code)
    (hnodup : shares.Nodup)
    (hfresh : ∀ s ∈ shares, s.share_code ≠ generate_share_code picks)
    (hnew : generate_share_code picks ≠ old.share_code)
    (hlen : picks.length = 8)
    (halpha : ∀ c ∈ picks, c ∈ share_alphabet) :
    ∃ shares',
      share_project_with_parents teacher project classroomTeacherId parentEmail stype picks shares
        = some shares' ∧
      lookup_share shares' old.share_code = none ∧
      (∃ s', lookup_share shares' (generate_share_code picks) = some s' ∧
        s'.project_id = project.id ∧ s'.teacher_id = teacher.id) ∧
      (shares'.filter (pair_match project.id teacher.id)).length
        = (shares.filter (pair_match project.id teacher.id)).length ∧
      (generate_share_code picks).length = 8 ∧
      (∀ c ∈ (generate_share_code picks).toList, c.isUpper ∨ c.isDigit) := by
  have hpm : pair_match project.id teacher.id old = true := by
    simp [pair_match, hopid, hotid]
  have hany : shares.any (pair_match project.id teacher.id) = true :=
    List.any_eq_true.mpr ⟨old, hmem, hpm⟩
  obtain ⟨l1, t, l2, heq, hl1, ht, hupd⟩ :=
    update_first_share_decomp shares project.id teacher.id stype (generate_share_code picks) hany
  have hteq : t = old :=
    hpair t (by rw [heq]; exact List.mem_append_right l1 (List.mem_cons_self t l2)) ht
  subst hteq
  have hnodup' := hnodup
  rw [heq] at hnodup'
  have hnotl1 : t ∉ l1 := by
    intro hx
    rcases List.nodup_append.mp hnodup' with ⟨_, _, hdisj⟩
    exact hdisj hx (List.mem_cons_self t l2)
  have hnotl2 : t ∉ l2 := by
    rcases List.nodup_append.mp hnodup' with ⟨_, hc, _⟩
    exact (List.nodup_cons.mp hc).1
  have c1 : (¬ (classroomTeacherId = teacher.id ∨ teacher.role = "admin")) = False :=
    eq_false (not_not_intro hperm)
  have c2 : (project.visibility ≠ "public" ∧ stype = "parents" ∧ parentEmail = none) = False :=
    eq_false hemail
  have hfun : share_project_with_parents teacher project classroomTeacherId parentEmail stype
      picks shares
      = some (l1 ++ { t with share_type := stype, share_code := generate_share_code picks } :: l2) := by
    unfold share_project_with_parents
    simp only [c1, c2, if_false]
    simp [hany, hupd]
  refine ⟨_, hfun, ?_, ?_, ?_, ?_, ?_⟩
  · apply List.find?_eq_none.mpr
    intro x hx
    rcases List.mem_append.mp hx with hx1 | hx2
    · have hxs : x ∈ shares := by rw [heq]; exact List.mem_append_left _ hx1
      have hxne : x ≠ t := fun hxe => hnotl1 (hxe ▸ hx1)
      simp [hcode x hxs hxne]
    · rcases List.mem_cons.mp hx2 with hx2 | hx2
      · subst hx2
        simp [hnew]
      · have hxs : x ∈ shares := by
          rw [heq]
          exact List.mem_append_right _ (List.mem_cons_of_mem _ hx2)
        have hxne : x ≠ t := fun hxe => hnotl2 (hxe ▸ hx2)
        simp [hcode x hxs hxne]
  · refine ⟨{ t with share_type := stype, share_code := generate_share_code picks }, ?_, ?_, ?_⟩
    · apply find?_append_cons
      · intro y hy
        have hys : y ∈ shares := by rw [heq]; exact List.mem_append_left _ hy
        simp [hfresh y hys]
      · simp
    · exact hopid
    · exact hotid
  · rw [heq, List.filter_append, List.filter_append, List.length_append, List.length_append]
    have hu : pair_match project.id teacher.id
        { t with share_type := stype, share_code := generate_share_code picks } = true := by
      simp [pair_match, hopid, hotid]
    simp [List.filter_cons, hu, hpm]
  · exact hlen ▸ rfl
  · intro c hc
    have hall : ∀ c ∈ share_alphabet, c.isUpper ∨ c.isDigit := by decide
    exact hall c (halpha c hc)

/-- Witness for C5: regenerating the share for project 10 and teacher 2
replaces the old code `OLDCODE9`; afterwards the old code no longer looks
up and the new 8-character alphanumeric code `NEWCODE1` does. -/
theorem c5_share_regeneration_witness :
    ((⟨10, 2, "parents", "OLDCODE9", none⟩ : ProjectShare)
        ∈ [(⟨10, 2, "parents", "OLDCODE9", none⟩ : ProjectShare)]) ∧
    (∃ shares',
      share_project_with_parents ⟨2, "teacher"⟩ ⟨10, "t", 1, 3, "public", none, 0, 0⟩ 2 none
          "parents" ("NEWCODE1".toList) [⟨10, 2, "parents", "OLDCODE9", none⟩]
        = some shares' ∧
      lookup_share shares' "OLDCODE9" = none ∧
      (∃ s', lookup_share shares' (generate_share_code ("NEWCODE1".toList)) = some s' ∧
        s'.project_id = 10 ∧ s'.teacher_id = 2) ∧
      (shares'.filter (pair_match 10 2)).length
        = (([(⟨10, 2, "parents", "OLDCODE9", none⟩ : ProjectShare)]).filter (pair_match 10 2)).length ∧
      (generate_share_code ("NEWCODE1".toList)).length = 8 ∧
      (∀ c ∈ (generate_share_code ("NEWCODE1".toList)).toList, c.isUpper ∨ c.isDigit)) :=
  ⟨by decide,
   c5_share_regeneration ⟨2, "teacher"⟩ ⟨10, "t", 1, 3, "public", none, 0, 0⟩ 2 none "parents"
     ("NEWCODE1".toList) [⟨10, 2, "parents", "OLDCODE9", none⟩] ⟨10, 2, "parents", "OLDCODE9", none⟩
     (Or.inl rfl) (by decide) (by decide) rfl rfl (by decide) (by decide) (by decide) (by decide)
     (by decide) (by decide) (by decide)⟩
